import Mathlib

/-!
Verification of the erpnext_archive_system module against its specification.

Each section embeds one part of the Python source (doctype controllers and
module-level whitelisted functions) as executable Lean definitions, keeping
the source's names and control flow, and proves or refutes the spec claims
about it.  External facilities (the Frappe ORM, the filesystem, the regex
engine, SHA-256) are modelled as explicit state or oracle parameters.
-/

namespace ArchiveSystem

/-! ## Archive Audit Trail (archive_audit_trail.py)

`ArchiveAuditTrail.before_save` assigns `retention_until` from a static
action-name-to-days table and `compliance_flag` from a static allow-list.
Dates are modelled as day counts (`Nat`); `datetime.now().date()` becomes an
explicit `today` argument. -/

/-- The `retention_days` dictionary of `ArchiveAuditTrail.set_retention_date`. -/
def retention_days : List (String × Nat) :=
  [("Document Created", 2555),
   ("Document Updated", 2555),
   ("Document Deleted", 2555),
   ("Document Accessed", 365),
   ("Document Downloaded", 2555),
   ("Document Shared", 2555),
   ("Version Created", 2555),
   ("Version Restored", 2555),
   ("Category Created", 2555),
   ("Category Updated", 2555),
   ("Category Deleted", 2555),
   ("Access Granted", 2555),
   ("Access Revoked", 2555),
   ("Encryption Applied", 2555),
   ("Decryption Applied", 2555),
   ("OCR Processed", 2555),
   ("Auto Categorized", 2555),
   ("Compliance Check", 2555),
   ("Audit Report Generated", 2555),
   ("System Error", 2555),
   ("Security Violation", 2555)]

/-- `retention_days.get(self.action, 2555)` of `set_retention_date`. -/
def retentionDaysFor (action : String) : Nat :=
  match retention_days.find? (fun p => p.1 = action) with
  | some p => p.2
  | none => 2555

/-- The `compliance_actions` allow-list of `ArchiveAuditTrail.set_compliance_flag`. -/
def compliance_actions : List String :=
  ["Document Created",
   "Document Updated",
   "Document Deleted",
   "Document Downloaded",
   "Document Shared",
   "Access Granted",
   "Access Revoked",
   "Encryption Applied",
   "Decryption Applied",
   "Compliance Check",
   "Security Violation"]

/-- An Archive Audit Trail row; only the fields the claims touch. -/
structure AuditRow where
  action : String
  retention_until : Option Nat
  compliance_flag : Bool
  deriving Repr, DecidableEq

/-- `ArchiveAuditTrail.before_save`: runs `set_retention_date`
(`retention_until = today + retention_days.get(action, 2555)`) and then
`set_compliance_flag` (`compliance_flag = action in compliance_actions`). -/
def auditBeforeSave (today : Nat) (e : AuditRow) : AuditRow :=
  { e with
    retention_until := some (today + retentionDaysFor e.action)
    compliance_flag := compliance_actions.contains e.action }

theorem contains_iff_mem (l : List String) (a : String) :
    l.contains a = true ↔ a ∈ l := by
  simp

/-- Claim C8: saving an Archive Audit Trail entry sets `retention_until` to the
current date plus the day count from the static table (365 days for
"Document Accessed", default 2555 for actions outside the table), and sets
`compliance_flag` to true iff the action is in the static allow-list. -/
theorem C8_retention_and_compliance (today : Nat) (e : AuditRow) :
    (auditBeforeSave today e).retention_until
        = some (today + retentionDaysFor e.action) ∧
    retentionDaysFor "Document Accessed" = 365 ∧
    (retention_days.find? (fun p => p.1 = e.action) = none →
      retentionDaysFor e.action = 2555) ∧
    ((auditBeforeSave today e).compliance_flag = true ↔
      e.action ∈ compliance_actions) := by
  refine ⟨rfl, by decide, ?_, ?_⟩
  · intro h
    unfold retentionDaysFor
    rw [h]
  · show compliance_actions.contains e.action = true ↔ e.action ∈ compliance_actions
    exact contains_iff_mem compliance_actions e.action

/-- Concrete instance of C8: an action absent from the table gets the 2555-day
default, "Document Accessed" saved on day 10 is retained until day 375, and
"Document Accessed" is not compliance-flagged. -/
theorem C8_retention_and_compliance_witness :
    retentionDaysFor "Some Unlisted Action" = 2555 ∧
    (auditBeforeSave 10 ⟨"Document Accessed", none, false⟩).retention_until
        = some 375 ∧
    (auditBeforeSave 10 ⟨"Document Accessed", none, false⟩).compliance_flag
        = false := by
  refine ⟨?_, ?_, by decide⟩
  · exact (C8_retention_and_compliance 0
      ⟨"Some Unlisted Action", none, false⟩).2.2.1 (by decide)
  · rw [(C8_retention_and_compliance 10
      ⟨"Document Accessed", none, false⟩).1]
    decide

/-! ## Archive Category (archive_category.py)

The category controller keeps a parent pointer per category.  The ORM is
modelled as an explicit state: the stored category rows and the stored
Archive Document rows (only the fields the claims touch).  `frappe.get_doc`
on a missing name and a runaway parent-chain recursion are both modelled by
`none` / an error result; recursion is bounded by explicit fuel. -/

/-- An Archive Category row.  Python's falsy empty `parent_category` is
modelled as `none`. -/
structure CategoryRow where
  name : String
  category_name : String
  parent_category : Option String
  deriving Repr, DecidableEq

/-- An Archive Document row (only the `category` reference matters here). -/
structure DocRow where
  name : String
  category : String
  deriving Repr, DecidableEq

/-- The stored rows the category controller queries. -/
structure CatState where
  categories : List CategoryRow
  documents : List DocRow
  deriving Repr

/-- `frappe.get_doc("Archive Category", n)`, as a lookup by primary key. -/
def getCategory (s : CatState) (n : String) : Option CategoryRow :=
  s.categories.find? (fun c => c.name = n)

/-- `ArchiveCategory.is_child_of(parent_name)`: walks `self.parent_category`
upward.  `none` models a raised exception (missing parent row) or exhausted
fuel (the source recursion, which has no visited-set, would not terminate on
cyclic stored data). -/
def is_child_of (s : CatState) : Nat → CategoryRow → String → Option Bool
  | 0, _, _ => none
  | fuel + 1, c, parent_name =>
    match c.parent_category with
    | none => some false
    | some pc =>
      if pc = parent_name then some true
      else
        match getCategory s pc with
        | none => none
        | some parent => is_child_of s fuel parent parent_name

/-- `ArchiveCategory.validate_parent_category`: with a non-empty parent, throw
on self-parenting, then fetch the parent and throw "Circular reference
detected in category hierarchy" when `self.is_child_of(parent.name)`. -/
def validate_parent_category (s : CatState) (fuel : Nat) (c : CategoryRow) :
    Except String Unit :=
  match c.parent_category with
  | none => .ok ()
  | some pc =>
    if pc = c.name then .error "Category cannot be its own parent"
    else
      match getCategory s pc with
      | none => .error "Archive Category not found"
      | some parent =>
        match is_child_of s fuel c parent.name with
        | some true => .error "Circular reference detected in category hierarchy"
        | some false => .ok ()
        | none => .error "unbounded parent-chain recursion"

/-- `ArchiveCategory.validate_category_deletion`: two existence queries, one
over categories with `parent_category = self.name`, one over documents with
`category = self.name`. -/
def validate_category_deletion (s : CatState) (c : CategoryRow) :
    Except String Unit :=
  match s.categories.filter (fun ch => ch.parent_category = some c.name) with
  | _ :: _ =>
    .error "Cannot delete category with child categories. Please delete child categories first."
  | [] =>
    match s.documents.filter (fun d => d.category = c.name) with
    | _ :: _ =>
      .error "Cannot delete category with documents. Please move or delete documents first."
    | [] => .ok ()

/-- `ArchiveCategory.on_trash`: runs `validate_category_deletion`; the
subsequent `create_audit_log` only inserts an audit row and cannot fail the
deletion. -/
def category_on_trash (s : CatState) (c : CategoryRow) : Except String Unit :=
  validate_category_deletion s c

/-- Category "A" with no parent, category "B" pointing at "A": an acyclic
two-node chain. -/
def exampleCatA : CategoryRow := ⟨"A", "Alpha", none⟩

/-- The child category of the acyclic example chain. -/
def exampleCatB : CategoryRow := ⟨"B", "Beta", some "A"⟩

/-- The stored state holding just the two example categories. -/
def exampleCatState : CatState := ⟨[exampleCatA, exampleCatB], []⟩

/-- Claim C1 (code bug): saving category "B" with parent "A", where "A" has no
parent (so the ancestor chain is acyclic and does not contain "B"), is
rejected with "Circular reference detected in category hierarchy".
`validate_parent_category` calls `self.is_child_of(parent.name)` with the new
parent already assigned to `self.parent_category`, so the walk's first step
compares `self.parent_category` with that same parent and always answers
true: every save with a non-empty parent distinct from the category itself is
rejected, contradicting the documented intent of the check. -/
theorem C1_parent_validation_always_rejects :
    getCategory exampleCatState "A" = some exampleCatA ∧
    exampleCatA.parent_category = none ∧
    validate_parent_category exampleCatState 5 exampleCatB
        = .error "Circular reference detected in category hierarchy" := by
  exact ⟨rfl, rfl, rfl⟩

/-- Claim C9: deleting a category errors iff some category row has it as
parent or some document row references it as category; with neither
referencing row the deletion validation passes. -/
theorem C9_category_deletion_blocked_iff_referenced
    (s : CatState) (c : CategoryRow) :
    (∃ e, category_on_trash s c = .error e) ↔
      (∃ ch ∈ s.categories, ch.parent_category = some c.name) ∨
      (∃ d ∈ s.documents, d.category = c.name) := by
  unfold category_on_trash validate_category_deletion
  constructor
  · rintro ⟨e, he⟩
    rcases hf : s.categories.filter (fun ch => ch.parent_category = some c.name)
      with _ | ⟨ch, chs⟩
    · rcases hg : s.documents.filter (fun d => d.category = c.name)
        with _ | ⟨d, ds⟩
      · rw [hf, hg] at he
        exact absurd he (by simp)
      · refine Or.inr ⟨d, ?_, ?_⟩
        · have : d ∈ s.documents.filter (fun d => d.category = c.name) := by
            rw [hg]; exact List.mem_cons_self d ds
          exact (List.mem_filter.mp this).1
        · have : d ∈ s.documents.filter (fun d => d.category = c.name) := by
            rw [hg]; exact List.mem_cons_self d ds
          exact of_decide_eq_true (List.mem_filter.mp this).2
    · refine Or.inl ⟨ch, ?_, ?_⟩
      · have : ch ∈ s.categories.filter
            (fun ch => ch.parent_category = some c.name) := by
          rw [hf]; exact List.mem_cons_self ch chs
        exact (List.mem_filter.mp this).1
      · have : ch ∈ s.categories.filter
            (fun ch => ch.parent_category = some c.name) := by
          rw [hf]; exact List.mem_cons_self ch chs
        exact of_decide_eq_true (List.mem_filter.mp this).2
  · intro h
    rcases hf : s.categories.filter (fun ch => ch.parent_category = some c.name)
      with _ | ⟨ch, chs⟩
    · rcases hg : s.documents.filter (fun d => d.category = c.name)
        with _ | ⟨d, ds⟩
      · exfalso
        rcases h with ⟨ch, hch, hp⟩ | ⟨d, hd, hc⟩
        · have : ch ∈ s.categories.filter
              (fun ch => ch.parent_category = some c.name) :=
            List.mem_filter.mpr ⟨hch, decide_eq_true hp⟩
          rw [hf] at this
          exact absurd this (List.not_mem_nil ch)
        · have : d ∈ s.documents.filter (fun d => d.category = c.name) :=
            List.mem_filter.mpr ⟨hd, decide_eq_true hc⟩
          rw [hg] at this
          exact absurd this (List.not_mem_nil d)
      · exact ⟨_, by rw [hf, hg]⟩
    · exact ⟨_, by rw [hf]⟩

/-! ## Archive Related Document (archive_related_document.py)

Relationship rows are directed edges between two Archive Documents.  The
whitelisted `add_relationship` / `remove_relationship` functions are embedded
over an explicit state of stored document names and relationship rows; fresh
row names are passed as arguments.  A caught exception after a partial
insert returns the error payload with the already-inserted row kept (the
module catches the exception itself, so the surrounding transaction is not
rolled back). -/

/-- An Archive Related Document row. -/
structure RelRow where
  name : String
  parent : String
  related_document_id : String
  relationship_type : String
  notes : String
  deriving Repr, DecidableEq

/-- Stored Archive Document names and Archive Related Document rows. -/
structure RelState where
  docs : List String
  rels : List RelRow
  deriving Repr, DecidableEq

/-- The `reverse_relationships` dictionary shared by `add_relationship` and
`remove_relationship`. -/
def reverse_relationships : List (String × String) :=
  [("Supersedes", "Superseded By"),
   ("Superseded By", "Supersedes"),
   ("References", "Referenced By"),
   ("Referenced By", "References"),
   ("Part Of", "Contains"),
   ("Contains", "Part Of"),
   ("Version Of", "Original Of"),
   ("Original Of", "Version Of")]

/-- `reverse_relationships.get(ty)`: the paired inverse type, when `ty` is a
key of the dictionary. -/
def reverseOf (ty : String) : Option String :=
  (reverse_relationships.find? (fun p => p.1 = ty)).map (fun p => p.2)

/-- The duplicate-relationship existence query used by `add_relationship` and
by `validate_related_document`. -/
def relExists (s : RelState) (pd rd ty : String) : Bool :=
  s.rels.any (fun r =>
    r.parent = pd ∧ r.related_document_id = rd ∧ r.relationship_type = ty)

/-- The status/message payload the whitelisted functions return. -/
inductive ApiResult where
  | success (message : String)
  | error (message : String)
  deriving Repr, DecidableEq

/-- `add_relationship(parent_document, related_document_id,
relationship_type, notes)`: existence checks, duplicate check, insert of the
forward row (whose `validate` rejects a self-relationship), then insert of
the reverse row when the type is a key of `reverse_relationships`.  `n1` and
`n2` are the fresh names the ORM assigns to the two inserted rows. -/
def add_relationship (s : RelState) (n1 n2 : String)
    (parent_document related_document_id relationship_type notes : String) :
    RelState × ApiResult :=
  if ¬ s.docs.contains parent_document then
    (s, .error "Parent document not found")
  else if ¬ s.docs.contains related_document_id then
    (s, .error "Related document not found")
  else if relExists s parent_document related_document_id relationship_type then
    (s, .error "Relationship already exists")
  else if related_document_id = parent_document then
    (s, .error "Document cannot be related to itself")
  else
    match reverseOf relationship_type with
    | some rty =>
      if relExists
          ⟨s.docs, s.rels ++
            [⟨n1, parent_document, related_document_id, relationship_type, notes⟩]⟩
          related_document_id parent_document rty then
        (⟨s.docs, s.rels ++
            [⟨n1, parent_document, related_document_id, relationship_type, notes⟩]⟩,
          .error "This relationship already exists")
      else
        (⟨s.docs, s.rels ++
            [⟨n1, parent_document, related_document_id, relationship_type, notes⟩,
             ⟨n2, related_document_id, parent_document, rty,
               if notes = "" then "Reverse relationship" else "Reverse of: " ++ notes⟩]⟩,
          .success "Relationship added successfully")
    | none =>
      (⟨s.docs, s.rels ++
          [⟨n1, parent_document, related_document_id, relationship_type, notes⟩]⟩,
        .success "Relationship added successfully")

/-- `frappe.get_doc("Archive Related Document", nm)` as a lookup by name. -/
def lookupRel (s : RelState) (nm : String) : Option RelRow :=
  s.rels.find? (fun r => r.name = nm)

/-- `remove_relationship(relationship_name)`: fetch the row, delete it, and
when its type is a key of `reverse_relationships`, query reverse rows
(swapped endpoints, paired inverse type) and delete the first one found, if
any. -/
def remove_relationship (s : RelState) (relationship_name : String) :
    RelState × ApiResult :=
  match lookupRel s relationship_name with
  | none => (s, .error "Archive Related Document not found")
  | some rel =>
    match reverseOf rel.relationship_type with
    | none =>
      (⟨s.docs, s.rels.filter (fun r => ¬ r.name = relationship_name)⟩,
        .success "Relationship removed successfully")
    | some rty =>
      match (s.rels.filter (fun r => ¬ r.name = relationship_name)).filter
          (fun r =>
            r.parent = rel.related_document_id ∧
            r.related_document_id = rel.parent ∧
            r.relationship_type = rty) with
      | [] =>
        (⟨s.docs, s.rels.filter (fun r => ¬ r.name = relationship_name)⟩,
          .success "Relationship removed successfully")
      | r0 :: _ =>
        (⟨s.docs, (s.rels.filter (fun r => ¬ r.name = relationship_name)).filter
            (fun r => ¬ r.name = r0.name)⟩,
          .success "Relationship removed successfully")

/-- Counterexample to claim C2: the fixed reverse-relationship table pairs
exactly eight relationship types into four symmetric pairs, not six pairs.
Its keys are pairwise distinct, every key maps to a distinct partner that
maps back, and there are eight keys — six disjoint symmetric pairs would
require twelve. -/
theorem C2_counterexample_four_pairs_not_six :
    (reverse_relationships.map Prod.fst).Nodup ∧
    (∀ p ∈ reverse_relationships,
      (p.2, p.1) ∈ reverse_relationships ∧ p.1 ≠ p.2) ∧
    reverse_relationships.length = 8 ∧
    ¬ reverse_relationships.length = 12 := by
  decide

/-- Claim C2 as amended: a successful `add_relationship` call stores the
forward row and auto-creates a reverse row (endpoints swapped, type replaced
by the paired inverse) exactly when the relationship type is one of the
eight types forming the table's four symmetric pairs; for a type outside the
table the stored rows are the old ones plus the forward row only. -/
theorem C2_reverse_created_iff_paired_type
    (s : RelState) (n1 n2 pd rd ty notes : String)
    (s' : RelState) (res : ApiResult)
    (h : add_relationship s n1 n2 pd rd ty notes = (s', res))
    (hres : res = .success "Relationship added successfully") :
    (∃ r ∈ s'.rels, r.parent = pd ∧ r.related_document_id = rd ∧
        r.relationship_type = ty ∧ r.notes = notes) ∧
    (∀ rty, reverseOf ty = some rty →
      ∃ r ∈ s'.rels, r.parent = rd ∧ r.related_document_id = pd ∧
        r.relationship_type = rty) ∧
    (reverseOf ty = none →
      s'.rels = s.rels ++ [⟨n1, pd, rd, ty, notes⟩]) := by
  subst hres
  unfold add_relationship at h
  split at h
  · exact absurd (congrArg Prod.snd h) (by simp)
  split at h
  · exact absurd (congrArg Prod.snd h) (by simp)
  split at h
  · exact absurd (congrArg Prod.snd h) (by simp)
  split at h
  · exact absurd (congrArg Prod.snd h) (by simp)
  split at h
  case _ rty heq =>
    split at h
    · exact absurd (congrArg Prod.snd h) (by simp)
    · injection h with hfst hsnd
      subst hfst
      refine ⟨⟨⟨n1, pd, rd, ty, notes⟩, by simp, rfl, rfl, rfl, rfl⟩, ?_, ?_⟩
      · intro rty' hrev'
        have hr : rty' = rty := by
          rw [heq] at hrev'
          exact (Option.some.inj hrev').symm
        subst hr
        exact ⟨⟨n2, rd, pd, rty',
          if notes = "" then "Reverse relationship" else "Reverse of: " ++ notes⟩,
          by simp, rfl, rfl, rfl⟩
      · intro hnone
        rw [heq] at hnone
        exact absurd hnone (by simp)
  case _ heq =>
    injection h with hfst hsnd
    subst hfst
    refine ⟨⟨⟨n1, pd, rd, ty, notes⟩, by simp, rfl, rfl, rfl, rfl⟩, ?_, ?_⟩
    · intro rty' hrev'
      rw [heq] at hrev'
      exact absurd hrev' (by simp)
    · intro _
      rfl

/-- Concrete instance of the amended C2: adding a "Supersedes" edge between
stored documents "D1" and "D2" succeeds and auto-creates the "Superseded By"
reverse edge. -/
theorem C2_reverse_created_iff_paired_type_witness :
    ∃ r ∈ (add_relationship ⟨["D1", "D2"], []⟩ "r1" "r2"
        "D1" "D2" "Supersedes" "").1.rels,
      r.parent = "D2" ∧ r.related_document_id = "D1" ∧
      r.relationship_type = "Superseded By" :=
  (C2_reverse_created_iff_paired_type ⟨["D1", "D2"], []⟩ "r1" "r2"
    "D1" "D2" "Supersedes" ""
    (add_relationship ⟨["D1", "D2"], []⟩ "r1" "r2" "D1" "D2" "Supersedes" "").1
    (add_relationship ⟨["D1", "D2"], []⟩ "r1" "r2" "D1" "D2" "Supersedes" "").2
    rfl rfl).2.1 "Superseded By" rfl
/-- Claim C10: removing an existing relationship by name succeeds, deletes
the named row, deletes only reverse rows (endpoints swapped, type the
paired inverse) besides it, and, when the relationship type has a paired
inverse and the reverse-row query on the remaining rows returns anything,
actually deletes the first returned reverse row; when the type has no
paired inverse, or no reverse row is stored, the call still succeeds. -/
theorem C10_remove_relationship (s : RelState) (nm : String) (rel : RelRow)
    (s' : RelState) (res : ApiResult)
    (hrel : lookupRel s nm = some rel)
    (hnd : (s.rels.map RelRow.name).Nodup)
    (h : remove_relationship s nm = (s', res)) :
    res = .success "Relationship removed successfully" ∧
    (∀ r ∈ s'.rels, ¬ r.name = nm) ∧
    (∀ r ∈ s'.rels, r ∈ s.rels) ∧
    (∀ r ∈ s.rels, r ∉ s'.rels →
      r.name = nm ∨
      (r.parent = rel.related_document_id ∧
       r.related_document_id = rel.parent ∧
       reverseOf rel.relationship_type = some r.relationship_type)) ∧
    (∀ rty, reverseOf rel.relationship_type = some rty →
      ∀ r0 rest, (s.rels.filter (fun r => ¬ r.name = nm)).filter
          (fun r =>
            r.parent = rel.related_document_id ∧
            r.related_document_id = rel.parent ∧
            r.relationship_type = rty) = r0 :: rest →
        r0 ∉ s'.rels) := by
  unfold remove_relationship at h
  split at h
  case _ heq =>
    rw [hrel] at heq
    cases heq
  case _ rel' heq =>
    rw [hrel] at heq
    injection heq with heq'
    subst heq'
    split at h
    case _ heq2 =>
      injection h with hfst hsnd
      subst hfst
      subst hsnd
      refine ⟨rfl, ?_, ?_, ?_, ?_⟩
      · intro r hr
        simp only [List.mem_filter, decide_eq_true_eq] at hr
        exact hr.2
      · intro r hr
        simp only [List.mem_filter, decide_eq_true_eq] at hr
        exact hr.1
      · intro r hr hnot
        left
        by_contra hn
        exact hnot (by
          simp only [List.mem_filter, decide_eq_true_eq]
          exact ⟨hr, hn⟩)
      · intro rty' hrty
        rw [heq2] at hrty
        cases hrty
    case _ rty heq2 =>
      split at h
      case _ hfe =>
        injection h with hfst hsnd
        subst hfst
        subst hsnd
        refine ⟨rfl, ?_, ?_, ?_, ?_⟩
        · intro r hr
          simp only [List.mem_filter, decide_eq_true_eq] at hr
          exact hr.2
        · intro r hr
          simp only [List.mem_filter, decide_eq_true_eq] at hr
          exact hr.1
        · intro r hr hnot
          left
          by_contra hn
          exact hnot (by
            simp only [List.mem_filter, decide_eq_true_eq]
            exact ⟨hr, hn⟩)
        · intro rty' hrty r0' rest' hlist
          rw [heq2] at hrty
          injection hrty with e
          subst e
          rw [hfe] at hlist
          cases hlist
      case _ r0 rest hfe =>
        injection h with hfst hsnd
        subst hfst
        subst hsnd
        have hr0mem : r0 ∈ (s.rels.filter (fun r => ¬ r.name = nm)).filter
            (fun r =>
              r.parent = rel.related_document_id ∧
              r.related_document_id = rel.parent ∧
              r.relationship_type = rty) := by
          rw [hfe]
          exact List.mem_cons_self r0 rest
        simp only [List.mem_filter, decide_eq_true_eq] at hr0mem
        have hnd1 : ((s.rels.filter (fun r => ¬ r.name = nm)).map RelRow.name).Nodup :=
          List.Nodup.sublist (List.Sublist.map _ (List.filter_sublist _)) hnd
        refine ⟨rfl, ?_, ?_, ?_, ?_⟩
        · intro r hr
          simp only [List.mem_filter, decide_eq_true_eq] at hr
          exact hr.1.2
        · intro r hr
          simp only [List.mem_filter, decide_eq_true_eq] at hr
          exact hr.1.1
        · intro r hr hnot
          by_cases hn : r.name = nm
          · exact Or.inl hn
          · right
            have hrf1 : r ∈ s.rels.filter (fun r => ¬ r.name = nm) := by
              simp only [List.mem_filter, decide_eq_true_eq]
              exact ⟨hr, hn⟩
            have hname : r.name = r0.name := by
              by_contra hne
              exact hnot (by
                simp only [List.mem_filter, decide_eq_true_eq]
                exact ⟨⟨hr, hn⟩, hne⟩)
            have hr0f1 : r0 ∈ s.rels.filter (fun r => ¬ r.name = nm) := by
              simp only [List.mem_filter, decide_eq_true_eq]
              exact hr0mem.1
            have hreq : r = r0 :=
              List.inj_on_of_nodup_map hnd1 hrf1 hr0f1 hname
            subst hreq
            exact ⟨hr0mem.2.1, hr0mem.2.2.1, by rw [heq2, hr0mem.2.2.2]⟩
        · intro rty' hrty r0' rest' hlist
          rw [heq2] at hrty
          injection hrty with e
          subst e
          rw [hfe] at hlist
          injection hlist with e1 e2
          subst e1
          intro hmem
          simp at hmem

/-- Concrete instances of C10: removing a stored "Supersedes" edge succeeds
and actually deletes the stored "Superseded By" reverse row; removing a
stored "References" edge whose reverse row was never created still returns
the success payload. -/
theorem C10_remove_relationship_witness :
    (remove_relationship
      ⟨["D1", "D2"], [⟨"r1", "D1", "D2", "Supersedes", ""⟩,
        ⟨"r2", "D2", "D1", "Superseded By", ""⟩]⟩ "r1").2
      = .success "Relationship removed successfully" ∧
    (⟨"r2", "D2", "D1", "Superseded By", ""⟩ : RelRow) ∉
      (remove_relationship
        ⟨["D1", "D2"], [⟨"r1", "D1", "D2", "Supersedes", ""⟩,
          ⟨"r2", "D2", "D1", "Superseded By", ""⟩]⟩ "r1").1.rels ∧
    (remove_relationship
      ⟨["D1", "D2"], [⟨"r1", "D1", "D2", "References", ""⟩]⟩ "r1").2
      = .success "Relationship removed successfully" := by
  refine ⟨?_, ?_, ?_⟩
  · exact (C10_remove_relationship
      ⟨["D1", "D2"], [⟨"r1", "D1", "D2", "Supersedes", ""⟩,
        ⟨"r2", "D2", "D1", "Superseded By", ""⟩]⟩ "r1"
      ⟨"r1", "D1", "D2", "Supersedes", ""⟩ _ _ rfl (by decide) rfl).1
  · exact (C10_remove_relationship
      ⟨["D1", "D2"], [⟨"r1", "D1", "D2", "Supersedes", ""⟩,
        ⟨"r2", "D2", "D1", "Superseded By", ""⟩]⟩ "r1"
      ⟨"r1", "D1", "D2", "Supersedes", ""⟩ _ _ rfl (by decide) rfl).2.2.2.2
      "Superseded By" rfl ⟨"r2", "D2", "D1", "Superseded By", ""⟩ [] rfl
  · exact (C10_remove_relationship
      ⟨["D1", "D2"], [⟨"r1", "D1", "D2", "References", ""⟩]⟩ "r1"
      ⟨"r1", "D1", "D2", "References", ""⟩ _ _ rfl (by decide) rfl).1

/-! ## Archive Document Version (archive_document_version.py)

Version rows are child rows of an Archive Document.  The ORM state is the
stored version rows plus the stored Archive Document names; the filesystem
(file sizes and SHA-256 hashes behind `frappe.get_doc("File", ...)`) is an
oracle `FileEnv`.  A document save (`insert()` as well as `save()`) runs
`validate` (`validate_version_number`, `set_file_hash`) and `before_save`
(`update_other_versions` when the row is flagged current and has a parent),
then writes the row; `create_new_version` queries the maximum stored
version number for the parent, inserts the next-numbered row flagged
current, and then saves the parent document (modelled as its existence
check; timestamps and file sizes carried by the row are outside the
claims). -/

structure VersionRow where
  name : String
  parent : String
  version_number : Int
  file_url : String
  version_notes : String
  file_hash : String
  is_current_version : Bool
  deriving Repr, DecidableEq

structure VerState where
  versions : List VersionRow
  docNames : List String
  deriving Repr, DecidableEq

structure FileEnv where
  fileSize : String → Option Int
  fileHash : String → Option String

def set_file_hash (env : FileEnv) (v : VersionRow) : VersionRow :=
  if v.file_url = "" then v
  else
    match env.fileHash v.file_url with
    | some h => { v with file_hash := h }
    | none => v

@[simp] theorem set_file_hash_name (env : FileEnv) (v : VersionRow) :
    (set_file_hash env v).name = v.name := by
  unfold set_file_hash
  split
  · rfl
  · split <;> rfl

@[simp] theorem set_file_hash_parent (env : FileEnv) (v : VersionRow) :
    (set_file_hash env v).parent = v.parent := by
  unfold set_file_hash
  split
  · rfl
  · split <;> rfl

@[simp] theorem set_file_hash_number (env : FileEnv) (v : VersionRow) :
    (set_file_hash env v).version_number = v.version_number := by
  unfold set_file_hash
  split
  · rfl
  · split <;> rfl

@[simp] theorem set_file_hash_url (env : FileEnv) (v : VersionRow) :
    (set_file_hash env v).file_url = v.file_url := by
  unfold set_file_hash
  split
  · rfl
  · split <;> rfl

@[simp] theorem set_file_hash_notes (env : FileEnv) (v : VersionRow) :
    (set_file_hash env v).version_notes = v.version_notes := by
  unfold set_file_hash
  split
  · rfl
  · split <;> rfl

@[simp] theorem set_file_hash_current (env : FileEnv) (v : VersionRow) :
    (set_file_hash env v).is_current_version = v.is_current_version := by
  unfold set_file_hash
  split
  · rfl
  · split <;> rfl

def flipOthers (p nm : String) (vs : List VersionRow) : List VersionRow :=
  vs.map (fun r =>
    if r.parent = p ∧ ¬ r.name = nm then { r with is_current_version := false } else r)

theorem mem_flipOthers_current {p nm : String} {vs : List VersionRow}
    {r' : VersionRow} (h : r' ∈ flipOthers p nm vs)
    (hc : r'.is_current_version = true) :
    r' ∈ vs ∧ (¬ r'.parent = p ∨ r'.name = nm) := by
  unfold flipOthers at h
  obtain ⟨r, hr, hr'⟩ := List.mem_map.mp h
  by_cases hcond : r.parent = p ∧ ¬ r.name = nm
  · rw [if_pos hcond] at hr'
    subst hr'
    simp at hc
  · rw [if_neg hcond] at hr'
    subst hr'
    refine ⟨hr, ?_⟩
    by_cases hp : r.parent = p
    · right
      by_contra hn
      exact hcond ⟨hp, hn⟩
    · exact Or.inl hp

theorem flipOthers_frame {p nm : String} {vs : List VersionRow} :
    ∀ r ∈ vs, ∃ r' ∈ flipOthers p nm vs,
      r'.name = r.name ∧ r'.parent = r.parent ∧
      r'.version_number = r.version_number ∧ r'.file_url = r.file_url ∧
      r'.version_notes = r.version_notes ∧ r'.file_hash = r.file_hash := by
  intro r hr
  refine ⟨if r.parent = p ∧ ¬ r.name = nm then
      { r with is_current_version := false } else r,
    List.mem_map_of_mem _ hr, ?_⟩
  by_cases hcond : r.parent = p ∧ ¬ r.name = nm
  · rw [if_pos hcond]
    exact ⟨rfl, rfl, rfl, rfl, rfl, rfl⟩
  · rw [if_neg hcond]
    exact ⟨rfl, rfl, rfl, rfl, rfl, rfl⟩

theorem mem_flipOthers_name {p nm : String} {vs : List VersionRow}
    {r' : VersionRow} (h : r' ∈ flipOthers p nm vs) :
    ∃ r ∈ vs, r'.name = r.name := by
  unfold flipOthers at h
  obtain ⟨r, hr, hr'⟩ := List.mem_map.mp h
  refine ⟨r, hr, ?_⟩
  by_cases hcond : r.parent = p ∧ ¬ r.name = nm
  · rw [if_pos hcond] at hr'
    subst hr'
    rfl
  · rw [if_neg hcond] at hr'
    subst hr'
    rfl

def writeRow (vs : List VersionRow) (v : VersionRow) : List VersionRow :=
  if vs.any (fun r => r.name = v.name) then
    vs.map (fun r => if r.name = v.name then v else r)
  else vs ++ [v]

theorem mem_writeRow {vs : List VersionRow} {v r' : VersionRow}
    (h : r' ∈ writeRow vs v) :
    r' = v ∨ (r' ∈ vs ∧ ¬ r'.name = v.name) := by
  unfold writeRow at h
  split at h
  · obtain ⟨r, hr, hr'⟩ := List.mem_map.mp h
    by_cases hn : r.name = v.name
    · rw [if_pos hn] at hr'
      exact Or.inl hr'.symm
    · rw [if_neg hn] at hr'
      subst hr'
      exact Or.inr ⟨hr, hn⟩
  · rename_i hany
    rcases List.mem_append.mp h with h1 | h2
    · refine Or.inr ⟨h1, fun hn => hany ?_⟩
      exact List.any_eq_true.mpr ⟨r', h1, decide_eq_true hn⟩
    · exact Or.inl (by simpa using h2)

def saveVersion (env : FileEnv) (s : VerState) (v : VersionRow) :
    Except String VerState :=
  if v.parent ≠ "" ∧ s.versions.any (fun r =>
      r.parent = v.parent ∧ r.version_number = v.version_number ∧
      ¬ r.name = v.name) then
    .error "Version number already exists for this document"
  else
    .ok ⟨writeRow
      (if v.is_current_version ∧ v.parent ≠ ""
        then flipOthers v.parent v.name s.versions
        else s.versions)
      (set_file_hash env v), s.docNames⟩

def atMostOneCurrent (vs : List VersionRow) : Prop :=
  ∀ r1 ∈ vs, ∀ r2 ∈ vs, r1.parent = r2.parent → ¬ r1.parent = "" →
    r1.is_current_version = true → r2.is_current_version = true →
    r1.name = r2.name

theorem saveVersion_preserves (env : FileEnv) (s : VerState) (v : VersionRow) (s' : VerState)
    (hinv : atMostOneCurrent s.versions)
    (hsave : saveVersion env s v = .ok s') :
    atMostOneCurrent s'.versions := by
  unfold saveVersion at hsave
  split at hsave
  · cases hsave
  · injection hsave with hs'
    subst hs'
    intro r1 h1 r2 h2 hpar hpne hc1 hc2
    by_cases hcur : v.is_current_version = true ∧ v.parent ≠ ""
    · rw [if_pos (by simpa using hcur)] at h1 h2
      rcases mem_writeRow h1 with e1 | ⟨m1, n1⟩ <;>
        rcases mem_writeRow h2 with e2 | ⟨m2, n2⟩
      · rw [e1, e2]
      · exfalso
        have hcc : r2.is_current_version = true := hc2
        obtain ⟨hm2, hor⟩ := mem_flipOthers_current m2 hcc
        rcases hor with hp2 | hn2
        · apply hp2
          rw [← hpar, e1]
          simp
        · exact n2 (by simpa using hn2)
      · exfalso
        obtain ⟨hm1, hor⟩ := mem_flipOthers_current m1 hc1
        rcases hor with hp1 | hn1
        · apply hp1
          rw [hpar, e2]
          simp
        · exact n1 (by simpa using hn1)
      · obtain ⟨hm1, _⟩ := mem_flipOthers_current m1 hc1
        obtain ⟨hm2, _⟩ := mem_flipOthers_current m2 hc2
        exact hinv r1 hm1 r2 hm2 hpar hpne hc1 hc2
    · rw [if_neg (by simpa using hcur)] at h1 h2
      rcases mem_writeRow h1 with e1 | ⟨m1, n1⟩ <;>
        rcases mem_writeRow h2 with e2 | ⟨m2, n2⟩
      · rw [e1, e2]
      · exfalso
        apply hcur
        have hcv : v.is_current_version = true := by
          rw [e1, set_file_hash_current] at hc1
          exact hc1
        have hpv : v.parent ≠ "" := by
          rw [e1, set_file_hash_parent] at hpne
          exact hpne
        exact ⟨hcv, hpv⟩
      · exfalso
        apply hcur
        have hcv : v.is_current_version = true := by
          rw [e2, set_file_hash_current] at hc2
          exact hc2
        have h2p : ¬ r2.parent = "" := by
          rw [← hpar]
          exact hpne
        have hpv : v.parent ≠ "" := by
          rw [e2, set_file_hash_parent] at h2p
          exact h2p
        exact ⟨hcv, hpv⟩
      · exact hinv r1 m1 r2 m2 hpar hpne hc1 hc2


def maxVer : List VersionRow → String → Option Int
  | [], _ => none
  | r :: rs, p =>
    if r.parent = p then
      match maxVer rs p with
      | none => some r.version_number
      | some m => some (max r.version_number m)
    else maxVer rs p

def nextVersionNumber (vs : List VersionRow) (p : String) : Int :=
  match maxVer vs p with
  | none => 1
  | some m => m + 1

theorem maxVer_none_iff (vs : List VersionRow) (p : String) :
    maxVer vs p = none ↔ ∀ r ∈ vs, ¬ r.parent = p := by
  induction vs with
  | nil => simp [maxVer]
  | cons r rs ih =>
    unfold maxVer
    by_cases hp : r.parent = p
    · rw [if_pos hp]
      constructor
      · intro h
        rcases hm : maxVer rs p with _ | m <;> rw [hm] at h <;> cases h
      · intro h
        exact absurd hp (h r (List.mem_cons_self r rs))
    · rw [if_neg hp]
      rw [ih]
      constructor
      · intro h r' hr'
        rcases List.mem_cons.mp hr' with e | hm
        · rw [e]
          exact hp
        · exact h r' hm
      · intro h r' hr'
        exact h r' (List.mem_cons_of_mem r hr')

theorem maxVer_le (vs : List VersionRow) (p : String) (m : Int)
    (h : maxVer vs p = some m) :
    ∀ r ∈ vs, r.parent = p → r.version_number ≤ m := by
  induction vs generalizing m with
  | nil => intro r hr; cases hr
  | cons r rs ih =>
    intro r' hr' hp'
    unfold maxVer at h
    by_cases hp : r.parent = p
    · rw [if_pos hp] at h
      rcases hm : maxVer rs p with _ | m0 <;> rw [hm] at h
      · injection h with h
        rcases List.mem_cons.mp hr' with e | hmem
        · rw [e, ← h]
        · exact absurd hp' ((maxVer_none_iff rs p).mp hm r' hmem)
      · injection h with h
        rcases List.mem_cons.mp hr' with e | hmem
        · rw [e, ← h]
          exact le_max_left _ _
        · calc r'.version_number ≤ m0 := ih m0 hm r' hmem hp'
            _ ≤ m := by rw [← h]; exact le_max_right _ _
    · rw [if_neg hp] at h
      rcases List.mem_cons.mp hr' with e | hmem
      · rw [e] at hp'
        exact absurd hp' hp
      · exact ih m h r' hmem hp'

theorem maxVer_mem (vs : List VersionRow) (p : String) (m : Int)
    (h : maxVer vs p = some m) :
    ∃ r ∈ vs, r.parent = p ∧ r.version_number = m := by
  induction vs generalizing m with
  | nil => cases h
  | cons r rs ih =>
    unfold maxVer at h
    by_cases hp : r.parent = p
    · rw [if_pos hp] at h
      rcases hm : maxVer rs p with _ | m0 <;> rw [hm] at h
      · injection h with h
        exact ⟨r, List.mem_cons_self r rs, hp, h⟩
      · injection h with h
        rcases max_cases r.version_number m0 with ⟨he, _⟩ | ⟨he, _⟩
        · exact ⟨r, List.mem_cons_self r rs, hp, by rw [← h, he]⟩
        · obtain ⟨r0, hr0, hp0, hn0⟩ := ih m0 hm
          exact ⟨r0, List.mem_cons_of_mem r hr0, hp0, by rw [← h, he, hn0]⟩
    · rw [if_neg hp] at h
      obtain ⟨r0, hr0, hp0, hn0⟩ := ih m h
      exact ⟨r0, List.mem_cons_of_mem r hr0, hp0, hn0⟩

theorem nextVersionNumber_gt (vs : List VersionRow) (p : String) :
    ∀ r ∈ vs, r.parent = p → r.version_number < nextVersionNumber vs p := by
  intro r hr hp
  unfold nextVersionNumber
  rcases hm : maxVer vs p with _ | m
  · exact absurd hp ((maxVer_none_iff vs p).mp hm r hr)
  · show r.version_number < m + 1
    have := maxVer_le vs p m hm r hr hp
    omega

theorem nextVersionNumber_eq_one (vs : List VersionRow) (p : String)
    (h : ∀ r ∈ vs, ¬ r.parent = p) : nextVersionNumber vs p = 1 := by
  unfold nextVersionNumber
  rw [(maxVer_none_iff vs p).mpr h]

theorem nextVersionNumber_succ (vs : List VersionRow) (p : String)
    (h : ∃ r ∈ vs, r.parent = p) :
    ∃ r ∈ vs, r.parent = p ∧ r.version_number + 1 = nextVersionNumber vs p := by
  unfold nextVersionNumber
  rcases hm : maxVer vs p with _ | m
  · obtain ⟨r, hr, hp⟩ := h
    exact absurd hp ((maxVer_none_iff vs p).mp hm r hr)
  · obtain ⟨r, hr, hp, hn⟩ := maxVer_mem vs p m hm
    exact ⟨r, hr, hp, by rw [hn]⟩

inductive VResult where
  | success (version_number : Int)
  | error (message : String)
  deriving Repr, DecidableEq

def create_new_version (env : FileEnv) (s : VerState) (freshName : String)
    (parent_document file_url version_notes change_summary : String) :
    VerState × VResult :=
  if file_url ≠ "" ∧ env.fileSize file_url = none then
    (s, .error "File not found")
  else
    match saveVersion env s
        ⟨freshName, parent_document, nextVersionNumber s.versions parent_document,
          file_url, version_notes, "", true⟩ with
    | .error e => (s, .error e)
    | .ok s1 =>
      if s1.docNames.contains parent_document then
        (s1, .success (nextVersionNumber s.versions parent_document))
      else
        (s1, .error "Archive Document not found")

def lookupVersion (s : VerState) (nm : String) : Option VersionRow :=
  s.versions.find? (fun r => r.name = nm)

def restore_version (env : FileEnv) (s : VerState)
    (freshName version_name : String) : VerState × VResult :=
  match lookupVersion s version_name with
  | none => (s, .error "Archive Document Version not found")
  | some version_doc =>
    if s.docNames.contains version_doc.parent then
      create_new_version env s freshName version_doc.parent version_doc.file_url
        ("Restored from version " ++ toString version_doc.version_number)
        ("Restored from version " ++ toString version_doc.version_number)
    else (s, .error "Archive Document not found")

theorem newRow_any_false (env : FileEnv) (s : VerState)
    (nm pd fu notes : String) (n : Int)
    (hfresh : ∀ r ∈ s.versions, ¬ r.name = nm)
    (vs1 : List VersionRow)
    (hvs1 : vs1 = flipOthers pd nm s.versions ∨ vs1 = s.versions) :
    ¬ (vs1.any (fun r =>
        r.name = (set_file_hash env ⟨nm, pd, n, fu, notes, "", true⟩).name)
      = true) := by
  intro hA
  obtain ⟨r, hrm, hrp⟩ := List.any_eq_true.mp hA
  have hrn : r.name = nm := by
    have h0 := of_decide_eq_true hrp
    rw [set_file_hash_name] at h0
    exact h0
  rcases hvs1 with h1 | h1
  · subst h1
    obtain ⟨r0, hr0, he⟩ := mem_flipOthers_name hrm
    exact hfresh r0 hr0 (by rw [← he, hrn])
  · subst h1
    exact hfresh r hrm hrn

theorem create_new_version_run (env : FileEnv) (s : VerState)
    (nm pd fu notes summary : String)
    (hfresh : ∀ r ∈ s.versions, ¬ r.name = nm)
    (hdoc : s.docNames.contains pd = true)
    (hfile : fu = "" ∨ env.fileSize fu ≠ none) :
    create_new_version env s nm pd fu notes summary =
      (⟨(if pd ≠ "" then flipOthers pd nm s.versions else s.versions) ++
          [set_file_hash env
            ⟨nm, pd, nextVersionNumber s.versions pd, fu, notes, "", true⟩],
        s.docNames⟩,
       .success (nextVersionNumber s.versions pd)) := by
  have hdup : ¬ ((pd ≠ "") ∧ s.versions.any (fun r =>
      r.parent = pd ∧ r.version_number = nextVersionNumber s.versions pd ∧
      ¬ r.name = nm) = true) := by
    rintro ⟨-, hany⟩
    obtain ⟨r, hr, hp⟩ := List.any_eq_true.mp hany
    obtain ⟨hp1, hp2, -⟩ := of_decide_eq_true hp
    have := nextVersionNumber_gt s.versions pd r hr hp1
    omega
  have hsv : saveVersion env s
      ⟨nm, pd, nextVersionNumber s.versions pd, fu, notes, "", true⟩ =
      .ok ⟨(if pd ≠ "" then flipOthers pd nm s.versions else s.versions) ++
          [set_file_hash env
            ⟨nm, pd, nextVersionNumber s.versions pd, fu, notes, "", true⟩],
        s.docNames⟩ := by
    unfold saveVersion
    rw [if_neg hdup]
    by_cases hpd : pd = ""
    · rw [if_neg (show ¬ ((⟨nm, pd, nextVersionNumber s.versions pd, fu, notes,
          "", true⟩ : VersionRow).is_current_version = true ∧
          (⟨nm, pd, nextVersionNumber s.versions pd, fu, notes,
          "", true⟩ : VersionRow).parent ≠ "") from fun hc => hc.2 hpd)]
      rw [if_neg (show ¬ (pd ≠ "") from fun hc => hc hpd)]
      unfold writeRow
      rw [if_neg (newRow_any_false env s nm pd fu notes _ hfresh _ (Or.inr rfl))]
    · rw [if_pos (show ((⟨nm, pd, nextVersionNumber s.versions pd, fu, notes,
          "", true⟩ : VersionRow).is_current_version = true ∧
          (⟨nm, pd, nextVersionNumber s.versions pd, fu, notes,
          "", true⟩ : VersionRow).parent ≠ "") from ⟨rfl, hpd⟩)]
      rw [if_pos (show pd ≠ "" from hpd)]
      unfold writeRow
      rw [if_neg (newRow_any_false env s nm pd fu notes _ hfresh _ (Or.inl rfl))]
  unfold create_new_version
  rw [if_neg (by tauto), hsv]
  exact if_pos hdoc

theorem create_new_version_spec (env : FileEnv) (s : VerState)
    (nm pd fu notes summary : String) (s' : VerState) (res : VResult)
    (hfresh : ∀ r ∈ s.versions, ¬ r.name = nm)
    (hdoc : s.docNames.contains pd = true)
    (hfile : fu = "" ∨ env.fileSize fu ≠ none)
    (h : create_new_version env s nm pd fu notes summary = (s', res)) :
    res = .success (nextVersionNumber s.versions pd) ∧
    (∃ r ∈ s'.versions, r.name = nm ∧ r.parent = pd ∧
      r.version_number = nextVersionNumber s.versions pd ∧
      r.is_current_version = true ∧ r.file_url = fu ∧ r.version_notes = notes) ∧
    (∀ r ∈ s.versions, ∃ r' ∈ s'.versions, r'.name = r.name ∧
      r'.file_url = r.file_url ∧ r'.version_number = r.version_number ∧
      r'.version_notes = r.version_notes ∧ r'.file_hash = r.file_hash) := by
  rw [create_new_version_run env s nm pd fu notes summary hfresh hdoc hfile] at h
  injection h with hfst hsnd
  subst hfst
  subst hsnd
  refine ⟨rfl, ?_, ?_⟩
  · refine ⟨set_file_hash env
      ⟨nm, pd, nextVersionNumber s.versions pd, fu, notes, "", true⟩,
      by simp, ?_, ?_, ?_, ?_, ?_, ?_⟩
    · rw [set_file_hash_name]
    · rw [set_file_hash_parent]
    · rw [set_file_hash_number]
    · rw [set_file_hash_current]
    · rw [set_file_hash_url]
    · rw [set_file_hash_notes]
  · intro r hr
    by_cases hpd : pd = ""
    · rw [if_neg (show ¬ (pd ≠ "") from fun hc => hc hpd)]
      exact ⟨r, List.mem_append_left _ hr, rfl, rfl, rfl, rfl, rfl⟩
    · rw [if_pos (show pd ≠ "" from hpd)]
      obtain ⟨r', hr', h1, h2, h3, h4, h5, h6⟩ :=
        @flipOthers_frame pd nm s.versions r hr
      exact ⟨r', List.mem_append_left _ hr', h1, h4, h3, h5, h6⟩

theorem create_preserves (env : FileEnv) (s : VerState)
    (nm pd fu notes summary : String) (s' : VerState) (res : VResult)
    (hinv : atMostOneCurrent s.versions)
    (h : create_new_version env s nm pd fu notes summary = (s', res)) :
    atMostOneCurrent s'.versions := by
  unfold create_new_version at h
  split at h
  · injection h with hfst hsnd
    subst hfst
    exact hinv
  · split at h
    case _ e heq =>
      injection h with hfst hsnd
      subst hfst
      exact hinv
    case _ s1 heq =>
      split at h <;>
      · injection h with hfst hsnd
        subst hfst
        exact saveVersion_preserves env s _ s1 hinv heq

theorem restore_preserves (env : FileEnv) (s : VerState)
    (nm vn : String) (s' : VerState) (res : VResult)
    (hinv : atMostOneCurrent s.versions)
    (h : restore_version env s nm vn = (s', res)) :
    atMostOneCurrent s'.versions := by
  unfold restore_version at h
  split at h
  · injection h with hfst hsnd
    subst hfst
    exact hinv
  · split at h
    · exact create_preserves env s nm _ _ _ _ s' res hinv h
    · injection h with hfst hsnd
      subst hfst
      exact hinv

def exampleEnv : FileEnv := ⟨fun _ => some 1, fun _ => some "hash"⟩

def exampleVerState : VerState :=
  ⟨[⟨"v1", "D1", 1, "u1", "initial", "", true⟩], ["D1"]⟩

/-- Claim C3: starting from stored rows where at most one Archive Document
Version per parent document is flagged current, any save of a version row,
any `create_new_version` call, and any `restore_version` call leaves at most
one current version per parent document ("per parent document" reads over
rows whose parent link is set; the flag-flip update is skipped by the source
when `self.parent` is empty). -/
theorem C3_at_most_one_current (env : FileEnv) (s : VerState)
    (hinv : atMostOneCurrent s.versions) :
    (∀ v s', saveVersion env s v = .ok s' → atMostOneCurrent s'.versions) ∧
    (∀ nm pd fu notes summary s' res,
      create_new_version env s nm pd fu notes summary = (s', res) →
      atMostOneCurrent s'.versions) ∧
    (∀ nm vn s' res, restore_version env s nm vn = (s', res) →
      atMostOneCurrent s'.versions) :=
  ⟨fun v s' h => saveVersion_preserves env s v s' hinv h,
   fun nm pd fu notes summary s' res h =>
     create_preserves env s nm pd fu notes summary s' res hinv h,
   fun nm vn s' res h => restore_preserves env s nm vn s' res hinv h⟩

/-- Concrete instance of C3: after creating a second version of document
"D1", at most one version row per parent is current. -/
theorem C3_at_most_one_current_witness :
    atMostOneCurrent (create_new_version exampleEnv exampleVerState
      "v2" "D1" "u2" "nn" "").1.versions :=
  (C3_at_most_one_current exampleEnv exampleVerState
      (by unfold atMostOneCurrent; decide)).2.1
    "v2" "D1" "u2" "nn" ""
    (create_new_version exampleEnv exampleVerState "v2" "D1" "u2" "nn" "").1
    (create_new_version exampleEnv exampleVerState "v2" "D1" "u2" "nn" "").2
    rfl

/-- Claim C6: `create_new_version` inserts a version numbered one above the
maximum stored for that parent (1 when the parent has no versions: the
strictly-greater bound over an empty set plus the explicit `n = 1` clause),
and reports success with that number. -/
theorem C6_next_version_number (env : FileEnv) (s : VerState)
    (nm pd fu notes summary : String) (s' : VerState) (res : VResult)
    (hfresh : ∀ r ∈ s.versions, ¬ r.name = nm)
    (hdoc : s.docNames.contains pd = true)
    (hfile : fu = "" ∨ env.fileSize fu ≠ none)
    (h : create_new_version env s nm pd fu notes summary = (s', res)) :
    ∃ n : Int, res = .success n ∧
      (∃ r ∈ s'.versions, r.name = nm ∧ r.parent = pd ∧ r.version_number = n ∧
        r.is_current_version = true ∧ r.file_url = fu) ∧
      (∀ r ∈ s.versions, r.parent = pd → r.version_number < n) ∧
      ((∀ r ∈ s.versions, ¬ r.parent = pd) → n = 1) ∧
      ((∃ r ∈ s.versions, r.parent = pd) →
        ∃ r ∈ s.versions, r.parent = pd ∧ r.version_number + 1 = n) := by
  obtain ⟨h1, h2, h3⟩ :=
    create_new_version_spec env s nm pd fu notes summary s' res hfresh hdoc hfile h
  refine ⟨nextVersionNumber s.versions pd, h1, ?_,
    nextVersionNumber_gt s.versions pd,
    fun hno => nextVersionNumber_eq_one s.versions pd hno,
    fun hex => nextVersionNumber_succ s.versions pd hex⟩
  obtain ⟨r, hr, ha, hb, hc, hd, he, -⟩ := h2
  exact ⟨r, hr, ha, hb, hc, hd, he⟩

/-- Concrete instance of C6: with one stored version numbered 1, the next
`create_new_version` reports success with version number 2. -/
theorem C6_next_version_number_witness :
    (create_new_version exampleEnv exampleVerState "v2" "D1" "u2" "nn" "").2
      = .success 2 := by
  obtain ⟨n, hres, hrow, hgt, hone, hsucc⟩ :=
    C6_next_version_number exampleEnv exampleVerState "v2" "D1" "u2" "nn" ""
      (create_new_version exampleEnv exampleVerState "v2" "D1" "u2" "nn" "").1
      (create_new_version exampleEnv exampleVerState "v2" "D1" "u2" "nn" "").2
      (by decide) (by decide) (Or.inr (by intro hc; cases hc)) rfl
  obtain ⟨r, hr, hp, he⟩ :=
    hsucc ⟨⟨"v1", "D1", 1, "u1", "initial", "", true⟩, by simp [exampleVerState], rfl⟩
  have hrv : r = ⟨"v1", "D1", 1, "u1", "initial", "", true⟩ := by
    have : r ∈ exampleVerState.versions := hr
    simpa [exampleVerState] using this
  subst hrv
  have he' : (1 : Int) + 1 = n := he
  have hn : n = 2 := by omega
  rw [hres, hn]

/-- Claim C7: a successful `restore_version` inserts a new version row whose
`file_url` equals the target version's `file_url`, and every pre-existing
version row keeps its `file_url`, `version_number`, `version_notes` and
`file_hash` (history is duplicated, not mutated). -/
theorem C7_restore_duplicates_not_mutates (env : FileEnv) (s : VerState)
    (nm vn : String) (tgt : VersionRow) (s' : VerState) (res : VResult)
    (htgt : lookupVersion s vn = some tgt)
    (hfresh : ∀ r ∈ s.versions, ¬ r.name = nm)
    (hdoc : s.docNames.contains tgt.parent = true)
    (hfile : tgt.file_url = "" ∨ env.fileSize tgt.file_url ≠ none)
    (h : restore_version env s nm vn = (s', res)) :
    (∃ n, res = .success n) ∧
    (∃ r ∈ s'.versions, r.name = nm ∧ r.file_url = tgt.file_url ∧
      r.is_current_version = true) ∧
    (∀ r ∈ s.versions, ∃ r' ∈ s'.versions, r'.name = r.name ∧
      r'.file_url = r.file_url ∧ r'.version_number = r.version_number ∧
      r'.version_notes = r.version_notes ∧ r'.file_hash = r.file_hash) := by
  unfold restore_version at h
  split at h
  case _ heq =>
    rw [htgt] at heq
    cases heq
  case _ vd heq =>
    rw [htgt] at heq
    injection heq with heq'
    subst heq'
    split at h
    case isTrue hct =>
      obtain ⟨h1, h2, h3⟩ :=
        create_new_version_spec env s nm tgt.parent tgt.file_url _ _ s' res
          hfresh hdoc hfile h
      obtain ⟨r, hr, ha, hb, hc, hd, he, -⟩ := h2
      exact ⟨⟨_, h1⟩, ⟨r, hr, ha, he, hd⟩, h3⟩
    case isFalse hct =>
      exact absurd hdoc hct

/-- Concrete instance of C7: restoring version "v1" of document "D1"
succeeds. -/
theorem C7_restore_duplicates_not_mutates_witness :
    ∃ n, (restore_version exampleEnv exampleVerState "v2" "v1").2
      = .success n :=
  (C7_restore_duplicates_not_mutates exampleEnv exampleVerState "v2" "v1"
    ⟨"v1", "D1", 1, "u1", "initial", "", true⟩
    (restore_version exampleEnv exampleVerState "v2" "v1").1
    (restore_version exampleEnv exampleVerState "v2" "v1").2
    rfl (by decide) (by decide) (Or.inr (by intro hc; cases hc)) rfl).1

/-! ## Archive Category Rule (archive_category_rule.py)

`apply_rules_to_document` fetches the active rules ordered by ascending
priority and loops over them; `ArchiveCategoryRule.apply_rule` checks the
rule against the lowercased document title prepended to the content string
(itself title + description + OCR text).  Python's `str.lower` becomes a
character-wise lowering, the `in` substring operator an explicit list
search, and the external regex engine (`re.search` with `re.IGNORECASE`) an
oracle `reSearch` argument.  `specFirstMatch` and `specFirstChangingMatch`
are written from the words of the claim (respectively its amendment), to be
compared with the embedding of the source. -/

/-- Modelled from the spec: an Archive Category Rule row.  The doctype
schema is not under src/; the spec's "keyword/regex/type matcher with
priority, used to auto-assign a category" implies the rule doctype carries a
target-category field, so `hasattr(rule_doc, 'parent_category')` in
`apply_rules_to_document` is true and the field holds a possibly-NULL
docname: a stored NULL (what `create_rule`, which never sets a target,
produces) is `none`.  The remaining fields are the ones the source queries
and reads. -/
structure RuleRow where
  name : String
  rule_name : String
  rule_type : String
  keyword : String
  pattern : String
  document_type : String
  priority : Int
  is_active : Bool
  parent_category : Option String
  deriving Repr, DecidableEq

/-- An Archive Document row as read by `apply_rules_to_document`; its
`category` link field holds a possibly-NULL docname (`None` in Python is
`none`). -/
structure ArcDoc where
  name : String
  document_title : String
  description : String
  ocr_text : String
  document_type : String
  category : Option String
  deriving Repr, DecidableEq

/-- Python `str.lower`, character-wise. -/
def lowerStr (s : String) : String := ⟨s.data.map Char.toLower⟩

/-- Does `needle` occur at the head of the haystack? -/
def subAt : List Char → List Char → Bool
  | [], _ => true
  | _ :: _, [] => false
  | a :: as, b :: bs => a == b && subAt as bs

/-- Python's `in` substring operator: does `needle` occur anywhere? -/
def hasSub (needle : List Char) : List Char → Bool
  | [] => subAt needle []
  | b :: bs => subAt needle (b :: bs) || hasSub needle bs

/-- `ArchiveCategoryRule.apply_rule(document_content, document_title,
document_type)`: inactive rules never match; `content_to_check` is the
lowercased title-prefixed content; "Keyword" is a substring test, "Pattern"
defers to the regex oracle (which bundles `re.IGNORECASE` on the lowered
string), "Document Type" compares the type, everything else ("File
Extension", "Content Analysis", unknown) returns false. -/
def apply_rule (reSearch : String → String → Bool) (rule : RuleRow)
    (document_content document_title document_type : String) : Bool :=
  if ¬ rule.is_active then false
  else if rule.rule_type = "Keyword" then
    hasSub (lowerStr rule.keyword).data
      (lowerStr (document_title ++ " " ++ document_content)).data
  else if rule.rule_type = "Pattern" then
    reSearch rule.pattern (lowerStr (document_title ++ " " ++ document_content))
  else if rule.rule_type = "Document Type" then
    document_type = rule.document_type
  else false

/-- Insertion step of the `order_by="priority asc"` fetch. -/
def insertByPriority (r : RuleRow) : List RuleRow → List RuleRow
  | [] => [r]
  | b :: bs =>
    if b.priority ≤ r.priority then b :: insertByPriority r bs else r :: b :: bs

/-- The `order_by="priority asc"` ordering of the fetched rules. -/
def sortRules : List RuleRow → List RuleRow
  | [] => []
  | r :: rs => insertByPriority r (sortRules rs)

/-- The scanned content `f"{doc.document_title} {doc.description or ''}
{doc.ocr_text or ''}"`. -/
def buildContent (doc : ArcDoc) : String :=
  doc.document_title ++ " " ++ doc.description ++ " " ++ doc.ocr_text

/-- The outcome of `apply_rules_to_document`: the success payload carries the
matched rule's name and the (possibly NULL) category it assigned. -/
inductive RuleResult where
  | success (rule_name : String) (new_category : Option String)
  | no_match
  deriving Repr, DecidableEq

/-- The `for rule in rules` loop of `apply_rules_to_document`: on a match the
rule's target (possibly NULL) is assigned to `doc.category`; only when that
differs from `old_category` is the document saved and success returned —
otherwise the assignment is a no-op and the loop continues with the next
rule. -/
def applyRulesLoop (reSearch : String → String → Bool) (doc : ArcDoc) :
    List RuleRow → RuleResult
  | [] => .no_match
  | rule :: rest =>
    if apply_rule reSearch rule (buildContent doc)
        doc.document_title doc.document_type then
      if ¬ doc.category = rule.parent_category then
        .success rule.rule_name rule.parent_category
      else applyRulesLoop reSearch doc rest
    else applyRulesLoop reSearch doc rest

/-- `apply_rules_to_document(document_name)`: fetch the active rules in
ascending priority order and run the loop. -/
def apply_rules_to_document (reSearch : String → String → Bool)
    (rules : List RuleRow) (doc : ArcDoc) : RuleResult :=
  applyRulesLoop reSearch doc (sortRules (rules.filter (fun r => r.is_active)))

/-- Written from the words of claim C5 as stated: the first active rule, in
ascending priority order, that matches wins — its category is assigned and
no later rule is consulted. -/
def specFirstMatch (reSearch : String → String → Bool)
    (rules : List RuleRow) (doc : ArcDoc) : RuleResult :=
  match (sortRules (rules.filter (fun r => r.is_active))).find? (fun rule =>
      apply_rule reSearch rule (buildContent doc)
        doc.document_title doc.document_type) with
  | some rule => .success rule.rule_name rule.parent_category
  | none => .no_match

/-- Written from the words of the amended claim C5: the first active rule, in
ascending priority order, that matches AND whose target category differs
from the document's current category wins; matching rules whose target
equals the current category are skipped. -/
def specFirstChangingMatch (reSearch : String → String → Bool)
    (rules : List RuleRow) (doc : ArcDoc) : RuleResult :=
  match (sortRules (rules.filter (fun r => r.is_active))).find? (fun rule =>
      apply_rule reSearch rule (buildContent doc)
        doc.document_title doc.document_type &&
      ¬ doc.category = rule.parent_category) with
  | some rule => .success rule.rule_name rule.parent_category
  | none => .no_match

theorem applyRulesLoop_cons (reSearch : String → String → Bool) (doc : ArcDoc)
    (rule : RuleRow) (rest : List RuleRow) :
    applyRulesLoop reSearch doc (rule :: rest) =
      if apply_rule reSearch rule (buildContent doc)
          doc.document_title doc.document_type then
        if ¬ doc.category = rule.parent_category then
          .success rule.rule_name rule.parent_category
        else applyRulesLoop reSearch doc rest
      else applyRulesLoop reSearch doc rest := rfl

theorem loop_eq_firstChanging (reSearch : String → String → Bool)
    (doc : ArcDoc) (l : List RuleRow) :
    applyRulesLoop reSearch doc l =
      match l.find? (fun rule =>
          apply_rule reSearch rule (buildContent doc)
            doc.document_title doc.document_type &&
          ¬ doc.category = rule.parent_category) with
      | some rule => .success rule.rule_name rule.parent_category
      | none => .no_match := by
  induction l with
  | nil => rfl
  | cons rule rest ih =>
    rw [applyRulesLoop_cons]
    by_cases happ : apply_rule reSearch rule (buildContent doc)
        doc.document_title doc.document_type = true
    · rw [if_pos happ]
      by_cases hch : doc.category = rule.parent_category
      · rw [if_neg (by simpa using hch)]
        rw [List.find?_cons_of_neg _ (by simp [happ, hch])]
        exact ih
      · rw [if_pos hch]
        rw [List.find?_cons_of_pos _ (by simp [happ, hch])]
    · rw [if_neg happ]
      rw [List.find?_cons_of_neg _ (by simp [happ])]
      exact ih

/-- Claim C5 as amended: `apply_rules_to_document` scans the active rules in
ascending priority order and the first rule that matches the document AND
whose target category (possibly NULL) differs from the document's current
category wins: its target is assigned and no later rule is consulted; a
matching rule whose target equals the current category is skipped and later
rules are consulted. -/
theorem C5_first_changing_match_wins (reSearch : String → String → Bool)
    (rules : List RuleRow) (doc : ArcDoc) :
    apply_rules_to_document reSearch rules doc =
      specFirstChangingMatch reSearch rules doc := by
  unfold apply_rules_to_document specFirstChangingMatch
  exact loop_eq_firstChanging reSearch doc _

/-- A regex oracle that never matches (the counterexample uses keyword rules
only). -/
def noRegex : String → String → Bool := fun _ _ => false

/-- The counterexample document: title "alpha beta", current category
"CatA". -/
def cexDoc : ArcDoc := ⟨"d1", "alpha beta", "", "", "Report", some "CatA"⟩

/-- Priority-1 keyword rule matching "alpha" with target category "CatA". -/
def cexRule1 : RuleRow :=
  ⟨"R1", "rule one", "Keyword", "alpha", "", "", 1, true, some "CatA"⟩

/-- Priority-2 keyword rule matching "beta" with target category "CatB". -/
def cexRule2 : RuleRow :=
  ⟨"R2", "rule two", "Keyword", "beta", "", "", 2, true, some "CatB"⟩

/-- Priority-2 keyword rule matching "beta" with a NULL target category. -/
def cexRule2null : RuleRow :=
  ⟨"R2", "rule two", "Keyword", "beta", "", "", 2, true, none⟩

/-- Counterexample to claim C5 as stated: rule "rule one" (priority 1,
keyword "alpha", target category "CatA") matches the document first, but
because the document already has category "CatA" the source skips it and
keeps scanning, so rule "rule two" (priority 2, keyword "beta", target
"CatB") wins — the claim predicts "rule one" wins and no later rule is
consulted.  The same skip happens only on equality: with a NULL-target
"rule two" the source still assigns, because NULL differs from "CatA", and
returns success with the category wiped. -/
theorem C5_counterexample_first_match_skipped :
    apply_rules_to_document noRegex [cexRule1, cexRule2] cexDoc
        = .success "rule two" (some "CatB") ∧
    specFirstMatch noRegex [cexRule1, cexRule2] cexDoc
        = .success "rule one" (some "CatA") ∧
    ¬ apply_rules_to_document noRegex [cexRule1, cexRule2] cexDoc
        = specFirstMatch noRegex [cexRule1, cexRule2] cexDoc ∧
    apply_rules_to_document noRegex [cexRule1, cexRule2null] cexDoc
        = .success "rule two" none := by
  refine ⟨by decide, by decide, by decide, by decide⟩

/-! ## Whitelisted-function error handling (all modules)

Every `@frappe.whitelist()` function of the module, with what its body
returns when the wrapped code raises: `statusError` is the catch-all that
logs and returns the status/error/message payload; `emptyList` and
`emptyDict` are catch-alls returning a bare `[]` or `\x7b\x7d`; `errorKeyDict` is
a catch-all returning a payload keyed "error"; `otherPayload` is
`validate_document_file`'s validation payload with the message in its
"errors" list; `propagates` marks functions with no try/except at all.
Each entry is transcribed from the function's single try/except structure
in its source file. -/

/-- The failure behaviour of a whitelisted function's body. -/
inductive FailureBehavior where
  | statusError
  | emptyList
  | emptyDict
  | errorKeyDict
  | otherPayload
  | propagates
  deriving Repr, DecidableEq

/-- All 50 whitelisted functions of the module with their failure behaviour,
in source-file order. -/
def whitelisted_functions : List (String × FailureBehavior) :=
  [("get_category_tree", .propagates),
   ("get_category_documents", .propagates),
   ("auto_categorize_document", .propagates),
   ("get_category_statistics", .propagates),
   ("create_new_version", .statusError),
   ("restore_version", .statusError),
   ("get_version_history", .propagates),
   ("compare_versions", .errorKeyDict),
   ("check_file_integrity", .statusError),
   ("create_subcategory", .statusError),
   ("get_subcategories_by_category", .emptyList),
   ("get_subcategory_statistics", .emptyList),
   ("get_subcategory_hierarchy", .emptyList),
   ("create_audit_entry", .statusError),
   ("get_audit_trail", .emptyList),
   ("get_audit_statistics", .emptyDict),
   ("generate_compliance_report", .errorKeyDict),
   ("cleanup_old_audit_entries", .statusError),
   ("create_rule", .statusError),
   ("apply_rules_to_document", .statusError),
   ("test_rule", .statusError),
   ("get_rule_statistics", .emptyList),
   ("bulk_apply_rules", .statusError),
   ("process_document_ocr", .propagates),
   ("encrypt_document", .propagates),
   ("decrypt_document", .propagates),
   ("search_archive_documents", .propagates),
   ("add_related_document", .propagates),
   ("create_document_type", .statusError),
   ("get_document_type_statistics", .emptyList),
   ("validate_document_file", .otherPayload),
   ("get_document_type_requirements", .emptyDict),
   ("get_active_document_types", .emptyList),
   ("add_relationship", .statusError),
   ("get_document_relationships", .emptyList),
   ("get_related_document_info", .emptyDict),
   ("remove_relationship", .statusError),
   ("get_relationship_statistics", .emptyList),
   ("get_archive_config", .statusError),
   ("update_archive_config", .statusError),
   ("upload_document", .statusError),
   ("search_documents", .statusError),
   ("get_document_details", .statusError),
   ("download_document", .statusError),
   ("create_document_version", .statusError),
   ("get_categories", .statusError),
   ("get_document_types", .statusError),
   ("get_archive_statistics", .statusError),
   ("bulk_upload_documents", .statusError),
   ("export_documents", .statusError)]

/-- Counterexample to claim C4: not every whitelisted function returns the
status/error payload on failure — `get_audit_trail` returns a bare empty
list, `generate_compliance_report` returns a payload keyed "error", and
`get_category_tree` has no catch-all at all and propagates the exception. -/
theorem C4_counterexample_nonuniform_error_handling :
    ("get_audit_trail", FailureBehavior.emptyList) ∈ whitelisted_functions ∧
    ("generate_compliance_report", FailureBehavior.errorKeyDict)
      ∈ whitelisted_functions ∧
    ("get_category_tree", FailureBehavior.propagates) ∈ whitelisted_functions ∧
    ¬ (∀ p ∈ whitelisted_functions, p.2 = FailureBehavior.statusError) := by
  decide

/-- Claim C4 as amended: exactly 25 of the 50 whitelisted functions log and
return the status/error payload on failure; the other 25, listed here in
source order, return a bare empty list (9), an empty dictionary (3), an
"error"-keyed payload (2), a validation payload (1), or propagate the
exception with no catch-all (10). -/
theorem C4_error_handling_partition :
    (whitelisted_functions.filter
        (fun p => ¬ p.2 = FailureBehavior.statusError)).map Prod.fst =
      ["get_category_tree", "get_category_documents",
       "auto_categorize_document", "get_category_statistics",
       "get_version_history", "compare_versions",
       "get_subcategories_by_category", "get_subcategory_statistics",
       "get_subcategory_hierarchy", "get_audit_trail", "get_audit_statistics",
       "generate_compliance_report", "get_rule_statistics",
       "process_document_ocr", "encrypt_document", "decrypt_document",
       "search_archive_documents", "add_related_document",
       "get_document_type_statistics", "validate_document_file",
       "get_document_type_requirements", "get_active_document_types",
       "get_document_relationships", "get_related_document_info",
       "get_relationship_statistics"] ∧
    (whitelisted_functions.filter
        (fun p => p.2 = FailureBehavior.statusError)).length = 25 ∧
    whitelisted_functions.length = 50 := by
  decide

end ArchiveSystem
